import Mathlib

/-!
# Verification of the job-queue / retry / dead-letter subsystem

Shallow embedding of the `Queue` class of `src/queue.ts` (the retry/DLQ core
of the notification engine) together with the worker-loop failure path of
`src/worker.ts`.

Modelling conventions:

* JavaScript numbers are modelled as exact integers (`Int`) and the value of
  `Math.random()` as an exact rational `r` with `0 ≤ r < 1`; arithmetic is
  exact rather than IEEE-754.
* The Redis lists (`notifications` and `notifications:dlq`) hold JSON-serialized
  job strings.  `JSON.stringify` is deterministic and, on the job objects this
  program produces (fields written in a fixed order), injective, so equality of
  serialized strings coincides with equality of the parsed `Job` records.  The
  lists are therefore modelled as `List Job`, and `LREM`'s compare-by-value is
  modelled as equality of `Job` records.  The serialize/parse boundary itself
  is modelled explicitly by `serializeJob` / `parseJob` below.
* `setTimeout(cb, delay)` registers an in-process pending callback; the pending
  re-enqueue timers are modelled as a list of `(delay, job)` pairs in the state
  (`QState.pending`), and the firing of the oldest timer as `fireTimer`.
* `async` failure (a rejected promise, e.g. a Redis error reply) is modelled
  with `Except String`.
-/

namespace NotifQueue

/-- A JSON primitive value.  The payloads this program enqueues
(`index.ts`: `payload: { subject, body, message, title }`) are flat records of
primitive values, so the open `Record<string, any>` payload is embedded as a
flat association list of JSON primitives. -/
inductive JPrim where
  | jnull
  | jbool (b : Bool)
  | jnum (n : Int)
  | jstr (s : String)
deriving DecidableEq

/-- The `Job` interface of `src/queue.ts` (lines 7-18).  Number fields are
`Int` (exact JS numbers); the optional fields `lastError` / `failedAt` are
`Option String`, `none` standing for an absent / `undefined` property. -/
structure Job where
  id : String
  type : String
  channel : String
  userId : Int
  payload : List (String × JPrim)
  createdAt : String
  attempt : Int
  maxAttempts : Int
  lastError : Option String := none
  failedAt : Option String := none
deriving DecidableEq

/-- The observable Redis state of one `Queue` instance: the main list
(`queueName`), the dead-letter list (`queueName + ":dlq"`), and the
in-process pending retry timers created by `setTimeout` in
`requestForRetry`.  Lists are kept in Redis order: the head of `queue` /
`dlq` is the most recently `LPUSH`ed entry; `BRPOP` takes from the tail. -/
structure QState where
  queueName : String := "notifications"
  queue : List Job := []
  dlq : List Job := []
  pending : List (Int × Job) := []
deriving DecidableEq

/-- `enqueue(job)`: `LPUSH queueName JSON.stringify(job)` — prepends the
serialized job at the fresh (head) end of the main list. -/
def enqueue (job : Job) (st : QState) : QState :=
  { st with queue := job :: st.queue }

/-- `dequeue(timeoutSec)`: `BRPOP queueName timeoutSec` — removes and returns
the oldest entry (the tail of the list) when one is available, and returns
`null` (here `none`) when the timeout elapses with the list empty; the
returned string is `JSON.parse`d back to a `Job`. -/
def dequeue (st : QState) : Option Job × QState :=
  match st.queue.getLast? with
  | none => (none, st)
  | some j => (some j, { st with queue := st.queue.dropLast })

/-- `size()`: `LLEN queueName`. -/
def size (st : QState) : Int :=
  st.queue.length

/-- The backoff base-delay table of `src/queue.ts` line 107, in
milliseconds: `[10_000, 60_000, 300_000]` (10 s, 1 min, 5 min). -/
def backOffDelays : List Int := [10000, 60000, 300000]

/-- `getBackOffDelay(attempt)` (`src/queue.ts` lines 109-116):
`index = Math.min(attempt - 1, backOffDelays.length - 1)`,
`baseDelay = backOffDelays[index]`,
`jitter = baseDelay * 0.2`, and the result is
`baseDelay + Math.floor(Math.random() * jitter * 2 - jitter)`.
`rand` is the value drawn by `Math.random()`, an exact rational in `[0, 1)`.
A negative `index` makes the array lookup `undefined` in JS (there is no
guard for `attempt ≤ 0`); that out-of-bounds case is modelled as `none`. -/
def getBackOffDelay (attempt : Int) (rand : ℚ) : Option Int :=
  let index : Int := min (attempt - 1) ((backOffDelays.length : Int) - 1)
  if index < 0 then none
  else
    (backOffDelays.get? index.toNat).map fun (baseDelay : Int) =>
      let jitter : ℚ := (baseDelay : ℚ) * (2 / 10)
      let jittered : Int := ⌊rand * jitter * 2 - jitter⌋
      baseDelay + jittered

/-- `moveToDLQ(job)` (`src/queue.ts` lines 155-160): sets
`job.failedAt = new Date().toISOString()` (the timestamp `now`), serializes
the mutated job and `LPUSH`es it onto the dead-letter list.  Returns the
mutated job object together with the new state. -/
def moveToDLQ (now : String) (job : Job) (st : QState) : Job × QState :=
  let job := { job with failedAt := some now }
  (job, { st with dlq := job :: st.dlq })

/-- `requestForRetry(job, error)` (`src/queue.ts` lines 125-145): increments
`job.attempt`, records `job.lastError = error`; if the incremented attempt
exceeds `maxAttempts` the job is moved to the DLQ, otherwise a re-enqueue of
the mutated job is scheduled via `setTimeout` after `getBackOffDelay` many
milliseconds.  `rand` is the `Math.random()` draw and `now` the wall-clock
timestamp a DLQ transition would record.  Returns the mutated job object and
the new state.  (`attempt ≥ 1` holds at the `getBackOffDelay` call whenever
the incoming attempt is nonnegative, so the `Option` never misses there; a
missing lookup would be a `NaN` delay, which `setTimeout` treats as 0.) -/
def requestForRetry (job : Job) (error : String) (rand : ℚ) (now : String)
    (st : QState) : Job × QState :=
  let job := { job with attempt := job.attempt + 1, lastError := some error }
  if job.attempt > job.maxAttempts then
    moveToDLQ now job st
  else
    let delay := (getBackOffDelay job.attempt rand).getD 0
    (job, { st with pending := st.pending ++ [(delay, job)] })

/-- The oldest pending `setTimeout` callback fires: the scheduled job is
re-enqueued onto the main queue. -/
def fireTimer (st : QState) : QState :=
  match st.pending with
  | [] => st
  | (_, job) :: rest => enqueue job { st with pending := rest }

/-- `getDLQ()`: `LRANGE dlqName 0 -1`, parsing every entry — the full
dead-letter list in store order. -/
def getDLQ (st : QState) : List Job :=
  st.dlq

/-- `dlqSize()`: `LLEN dlqName`. -/
def dlqSize (st : QState) : Int :=
  st.dlq.length

/-- Redis `LREM key count value` on a list whose head is the most recent
`LPUSH`: with `count > 0` it removes up to `count` elements equal to `value`
scanning from the head, with `count < 0` it scans from the tail, and with
`count = 0` it removes every occurrence.  `lremHead` is the head-to-tail scan
with a removal budget. -/
def lremHead (l : List Job) (count : Nat) (v : Job) : List Job :=
  match l with
  | [] => []
  | x :: xs =>
    if count = 0 then x :: xs
    else if x = v then lremHead xs (count - 1) v
    else x :: lremHead xs count v

/-- Redis `LREM` proper (see `lremHead`). -/
def lrem (l : List Job) (count : Int) (v : Job) : List Job :=
  if 0 < count then lremHead l count.toNat v
  else if count = 0 then l.filter (fun x => x ≠ v)
  else (lremHead l.reverse (-count).toNat v).reverse

/-- `retryFromDLQ(jobId)` (`src/queue.ts` lines 179-199): scans the parsed
dead-letter list for the first job whose `id` matches; if none is found it
returns `false` with no side effect.  Otherwise it runs
`LREM dlqName 1 JSON.stringify(job)` (removing one entry equal to the found
job), then resets `attempt = 0`, clears `lastError` and `failedAt`,
re-enqueues the job on the main queue and returns `true`. -/
def retryFromDLQ (jobId : String) (st : QState) : Bool × QState :=
  match (getDLQ st).find? (fun j => j.id == jobId) with
  | none => (false, st)
  | some job =>
    let st := { st with dlq := lrem st.dlq 1 job }
    let job := { job with attempt := 0, lastError := none, failedAt := none }
    (true, enqueue job st)

/-- How the Redis server reads `LREM`'s `count` argument off the wire: a
(possibly `-`-signed) run of decimal digits; any other byte makes the
command fail with `ERR value is not an integer or out of range`. -/
def redisParseDigits (cs : List Char) : Option Nat :=
  cs.foldl
    (fun acc c =>
      match acc with
      | none => none
      | some n => if c.isDigit then some (n * 10 + (c.toNat - 48)) else none)
    (some 0)

/-- Redis integer-argument parse (see `redisParseDigits`). -/
def redisParseInt (s : String) : Option Int :=
  match s.data with
  | [] => none
  | '-' :: rest =>
    if rest.isEmpty then none
    else (redisParseDigits rest).map (fun n => -(n : Int))
  | cs => (redisParseDigits cs).map (fun n => (n : Int))

/-- Loop body of `retryAllDLQ` (`src/queue.ts` lines 202-217).  For each job
of the snapshot the source runs
`this.redis.lrem(this.dlqName, this.queueName, JSON.stringify(job))`:
the *queue name string* is passed where `LREM`'s integer `count` belongs.
ioredis sends the argument verbatim and Redis parses it as an integer
(`redisParseInt`), answering `ERR value is not an integer or out of range`
for a non-numeric name — a rejected promise that aborts the loop.  On a
(hypothetical) all-digit queue name the removal, reset and re-enqueue would
proceed as in `retryFromDLQ`. -/
def retryAllDLQGo (queueName : String) : List Job → Int → QState →
    Except String (Int × QState)
  | [], retried, st => .ok (retried, st)
  | job :: rest, retried, st =>
    match redisParseInt queueName with
    | none => .error "ERR value is not an integer or out of range"
    | some c =>
      let st := { st with dlq := lrem st.dlq c job }
      let job := { job with attempt := 0, lastError := none, failedAt := none }
      retryAllDLQGo queueName rest (retried + 1) (enqueue job st)

/-- `retryAllDLQ()` (`src/queue.ts` lines 202-217): takes a snapshot of the
dead-letter list, then for each job removes it (see `retryAllDLQGo` for the
count-argument slip), resets `attempt`/`lastError`/`failedAt`, re-enqueues
it, and finally returns the number of jobs processed. -/
def retryAllDLQ (st : QState) : Except String (Int × QState) :=
  retryAllDLQGo st.queueName (getDLQ st) 0 st

/-!
## The serialization boundary

`enqueue` stores `JSON.stringify(job)` and `dequeue` applies `JSON.parse` to
the stored string.  The wire format is the flat JSON object of §6 of the
design: `{ id, type, channel, userId, payload, createdAt, attempt,
maxAttempts, lastError?, failedAt? }`, with `undefined` optional properties
omitted by `JSON.stringify`.  `serializeJob` builds that object (fields in
the order the program writes them) and `parseJob` reads a job back from a
JSON value, as the worker's `JSON.parse(serialized) as Job` does.
-/

/-- A property value of the serialized job object: either a JSON primitive
(the scalar fields) or a nested flat object of primitives (the payload).
The wire format nests no deeper, so the type need not be recursive; the
serialized job itself is the field list `List (String × JWire)`. -/
inductive JWire where
  | jprim (p : JPrim)
  | jobj (fs : List (String × JPrim))
deriving DecidableEq

/-- Field lookup in a parsed JSON object (first occurrence of the key). -/
def jlookup (fs : List (String × JWire)) (k : String) : Option JWire :=
  (fs.find? (fun p => p.1 == k)).map (fun p => p.2)

/-- `JSON.stringify(job)`: the serialized flat object, properties in the
order the program creates them; `undefined` optionals are omitted. -/
def serializeJob (j : Job) : List (String × JWire) :=
  [("id", .jprim (.jstr j.id)),
   ("type", .jprim (.jstr j.type)),
   ("channel", .jprim (.jstr j.channel)),
   ("userId", .jprim (.jnum j.userId)),
   ("payload", .jobj j.payload),
   ("createdAt", .jprim (.jstr j.createdAt)),
   ("attempt", .jprim (.jnum j.attempt)),
   ("maxAttempts", .jprim (.jnum j.maxAttempts))]
  ++ (match j.lastError with
      | some e => [("lastError", JWire.jprim (.jstr e))]
      | none => [])
  ++ (match j.failedAt with
      | some t => [("failedAt", JWire.jprim (.jstr t))]
      | none => [])

/-- Read a string field of a parsed object. -/
def getStr (fs : List (String × JWire)) (k : String) : Option String :=
  match jlookup fs k with
  | some (.jprim (.jstr s)) => some s
  | _ => none

/-- Read a number field of a parsed object. -/
def getNum (fs : List (String × JWire)) (k : String) : Option Int :=
  match jlookup fs k with
  | some (.jprim (.jnum n)) => some n
  | _ => none

/-- Read the flat payload-object field of a parsed object. -/
def getFlatObj (fs : List (String × JWire)) (k : String) :
    Option (List (String × JPrim)) :=
  match jlookup fs k with
  | some (.jobj ps) => some ps
  | _ => none

/-- `JSON.parse(serialized) as Job`: reads the job fields back out of the
parsed JSON object (the field list `fs`).  `none` stands for a shape the
cast would leave type-confused (a field missing or of the wrong kind). -/
def parseJob (fs : List (String × JWire)) : Option Job :=
  match getStr fs "id", getStr fs "type", getStr fs "channel",
      getNum fs "userId", getFlatObj fs "payload", getStr fs "createdAt",
      getNum fs "attempt", getNum fs "maxAttempts" with
  | some id, some type, some channel, some userId, some payload,
      some createdAt, some attempt, some maxAttempts =>
    some
      { id := id, type := type, channel := channel, userId := userId,
        payload := payload, createdAt := createdAt, attempt := attempt,
        maxAttempts := maxAttempts,
        lastError := getStr fs "lastError",
        failedAt := getStr fs "failedAt" }
  | _, _, _, _, _, _, _, _ => none

/-!
## Scenario A (design §8)

`enqueue job {id:"j1", maxAttempts:3}` and drive consecutive handler
failures through the worker loop of `src/worker.ts` (lines 52-74): the
pending retry timer (if any) fires and re-enqueues the job, the worker
dequeues it, the handler throws, and the worker calls
`queue.requestForRetry(job, errorMessage)`.
-/

/-- The job of Scenario A: created by the API with `attempt = 0`,
`maxAttempts = 3` (`index.ts` lines 46-54). -/
def j1 : Job :=
  { id := "j1", type := "notification", channel := "email", userId := 1,
    payload := [("subject", .jstr "s"), ("body", .jstr "b")],
    createdAt := "2024-01-01T00:00:00.000Z", attempt := 0, maxAttempts := 3 }

/-- One worker failure cycle: the oldest pending retry timer (if any) fires
and re-enqueues its job, the worker dequeues the next job, the handler fails
with message `e`, and the worker feeds the job into `requestForRetry`.
`p.1` tracks the worker's current job object. -/
def failureCycle (e : String) (rand : ℚ) (now : String) (p : Job × QState) :
    Job × QState :=
  let st := fireTimer p.2
  match dequeue st with
  | (none, st) => (p.1, st)
  | (some j, st) => requestForRetry j e rand now st

/-- Scenario A executor: enqueue `j1` into a fresh queue, then run one
failure cycle per error message (with `Math.random() = 0` and a fixed
failure timestamp `"tfail"`). -/
def scenarioA (errs : List String) : Job × QState :=
  errs.foldl (fun p e => failureCycle e 0 "tfail" p) (j1, enqueue j1 {})

/-- The job `j1` as it sits in the dead-letter store after exhausting its
retry budget (see `scenarioA_four_failures_dead_lettered`). -/
def deadJ1 : Job :=
  { j1 with attempt := 4, lastError := some "e4", failedAt := some "tfail" }

/-!
## Theorems
-/

/-- C1: a single `requestForRetry(job, e)` increments `job.attempt` by
exactly 1 and sets `job.lastError = e`; if the incremented attempt is
strictly greater than `job.maxAttempts` the job is appended to the
dead-letter list and not re-enqueued (queue and pending timers untouched),
and otherwise a re-enqueue after the computed backoff delay is scheduled
and the job is not dead-lettered. -/
theorem requestForRetry_effect (job : Job) (e : String) (r : ℚ) (now : String)
    (st : QState) :
    (requestForRetry job e r now st).1.attempt = job.attempt + 1 ∧
    (requestForRetry job e r now st).1.lastError = some e ∧
    (if job.attempt + 1 > job.maxAttempts then
      (requestForRetry job e r now st).2.dlq =
          (requestForRetry job e r now st).1 :: st.dlq ∧
        (requestForRetry job e r now st).2.queue = st.queue ∧
        (requestForRetry job e r now st).2.pending = st.pending
    else
      (requestForRetry job e r now st).2.pending =
          st.pending ++ [((getBackOffDelay (job.attempt + 1) r).getD 0,
            (requestForRetry job e r now st).1)] ∧
        (requestForRetry job e r now st).2.queue = st.queue ∧
        (requestForRetry job e r now st).2.dlq = st.dlq) := by
  by_cases h : job.attempt + 1 > job.maxAttempts <;>
    simp [requestForRetry, moveToDLQ, h]

/-- C5: when no dead-letter entry has the requested id, `retryFromDLQ`
returns `false` and leaves the whole state (main queue, dead-letter list,
pending timers) unchanged. -/
theorem retryFromDLQ_not_found (st : QState) (jobId : String)
    (h : ∀ x ∈ st.dlq, x.id ≠ jobId) :
    retryFromDLQ jobId st = (false, st) := by
  have hnone : (getDLQ st).find? (fun j => j.id == jobId) = none := by
    rw [List.find?_eq_none]
    intro x hx
    simpa using h x hx
  simp [retryFromDLQ, hnone]

/-- C5 witness: `retryFromDLQ "does-not-exist"` on a one-entry DLQ. -/
theorem retryFromDLQ_not_found_witness :
    (∀ x ∈ (QState.dlq { dlq := [deadJ1] }), x.id ≠ "does-not-exist") ∧
      retryFromDLQ "does-not-exist" { dlq := [deadJ1] } =
        (false, { dlq := [deadJ1] }) :=
  ⟨by decide, retryFromDLQ_not_found { dlq := [deadJ1] } "does-not-exist"
    (by decide)⟩

/-- C7: `dequeue` returns the oldest available entry (the tail of the
`LPUSH`-ordered list) and removes exactly it, and returns the explicit
empty result `none` (never an error) when no entry is available. -/
theorem dequeue_oldest_or_none (st : QState) :
    (st.queue = [] → dequeue st = (none, st)) ∧
    ∀ front oldest, st.queue = front ++ [oldest] →
      dequeue st = (some oldest, { st with queue := front }) := by
  constructor
  · intro h
    simp [dequeue, h]
  · intro front oldest h
    simp [dequeue, h]

/-- C7 witness: one-element queue and empty queue. -/
theorem dequeue_oldest_or_none_witness :
    dequeue { queue := [j1] } =
      (some j1, { ({ queue := [j1] } : QState) with queue := [] }) :=
  (dequeue_oldest_or_none { queue := [j1] }).2 [] j1 rfl

/-- C8: `failedAt` is written only at the dead-letter transition: a retry
cycle (the `attempt ≤ maxAttempts` branch of `requestForRetry`) leaves
`failedAt` of the re-enqueued job unchanged, and the job scheduled for
re-enqueue is exactly that job; `moveToDLQ` is what sets `failedAt`. -/
theorem failedAt_only_at_dlq (job : Job) (e : String) (r : ℚ)
    (now tdlq : String) (st : QState)
    (h : job.attempt + 1 ≤ job.maxAttempts) :
    (requestForRetry job e r now st).1.failedAt = job.failedAt ∧
    (requestForRetry job e r now st).2.pending =
      st.pending ++ [((getBackOffDelay (job.attempt + 1) r).getD 0,
        (requestForRetry job e r now st).1)] ∧
    (moveToDLQ tdlq job st).1.failedAt = some tdlq := by
  have h' : ¬ job.attempt + 1 > job.maxAttempts := not_lt.mpr h
  simp [requestForRetry, moveToDLQ, h']

/-- C8 witness: a first failure of `j1` (attempt 1 of 3). -/
theorem failedAt_only_at_dlq_witness :
    j1.attempt + 1 ≤ j1.maxAttempts ∧
      ((requestForRetry j1 "e1" 0 "tnow" {}).1.failedAt = j1.failedAt ∧
        (requestForRetry j1 "e1" 0 "tnow" {}).2.pending =
          [] ++ [((getBackOffDelay (j1.attempt + 1) 0).getD 0,
            (requestForRetry j1 "e1" 0 "tnow" {}).1)] ∧
        (moveToDLQ "tdlq" j1 {}).1.failedAt = some "tdlq") :=
  ⟨by decide, failedAt_only_at_dlq j1 "e1" 0 "tnow" "tdlq" {} (by decide)⟩

/-- C10: for every attempt `a ≥ 1` the backoff table index
`min(a-1, len-1)` lies within the bounds `[0, 2]` of the 3-entry table and
the lookup in `getBackOffDelay` yields a defined base delay; there is no
guard for `a ≤ 0`, where the index is negative and the lookup out of
bounds (`none`). -/
theorem backoff_index_safe (a : Int) (r : ℚ) (h : 1 ≤ a) :
    (0 ≤ min (a - 1) ((backOffDelays.length : Int) - 1) ∧
      min (a - 1) ((backOffDelays.length : Int) - 1) ≤ 2) ∧
    (getBackOffDelay a r).isSome = true ∧
    ∀ a' : Int, a' ≤ 0 → getBackOffDelay a' r = none := by
  have hlen : backOffDelays.length = 3 := rfl
  have hmin : 0 ≤ min (a - 1) ((backOffDelays.length : Int) - 1) ∧
      min (a - 1) ((backOffDelays.length : Int) - 1) ≤ 2 := by
    rw [hlen]
    omega
  refine ⟨hmin, ?_, ?_⟩
  · have hneg : ¬ min (a - 1) ((backOffDelays.length : Int) - 1) < 0 := by
      omega
    have hlt : (min (a - 1) ((backOffDelays.length : Int) - 1)).toNat <
        backOffDelays.length := by
      rw [hlen]
      omega
    rw [getBackOffDelay, if_neg hneg]
    simp [List.getElem?_eq_getElem hlt]
  · intro a' ha'
    have hneg : min (a' - 1) ((backOffDelays.length : Int) - 1) < 0 := by
      rw [hlen]
      omega
    rw [getBackOffDelay, if_pos hneg]

/-- C10 witness: attempt 1 (and the unguarded `a = 0` case). -/
theorem backoff_index_safe_witness :
    (1 : Int) ≤ 1 ∧
      ((0 ≤ min ((1 : Int) - 1) ((backOffDelays.length : Int) - 1) ∧
          min ((1 : Int) - 1) ((backOffDelays.length : Int) - 1) ≤ 2) ∧
        (getBackOffDelay 1 0).isSome = true ∧
        ∀ a' : Int, a' ≤ 0 → getBackOffDelay a' 0 = none) :=
  ⟨le_refl 1, backoff_index_safe 1 0 (le_refl 1)⟩

/-- Bounds on the jitter term `Math.floor(rand * jitter * 2 - jitter)` for
an integer jitter `j > 0` and `rand ∈ [0, 1)`: it lies in `[-j, j-1]`. -/
theorem jitterFloor_bounds (j : Int) (r : ℚ) (hj : 0 < j) (h0 : 0 ≤ r)
    (h1 : r < 1) :
    -j ≤ ⌊r * (j : ℚ) * 2 - (j : ℚ)⌋ ∧
      ⌊r * (j : ℚ) * 2 - (j : ℚ)⌋ ≤ j - 1 := by
  have hjq : (0 : ℚ) < (j : ℚ) := by exact_mod_cast hj
  constructor
  · rw [Int.le_floor]
    push_cast
    nlinarith [mul_nonneg h0 hjq.le]
  · have hlt : ⌊r * (j : ℚ) * 2 - (j : ℚ)⌋ < j := by
      rw [Int.floor_lt]
      nlinarith
    omega

/-- Evaluation of `getBackOffDelay` once the base-table lookup is known. -/
theorem getBackOffDelay_eq (base a : Int) (r : ℚ)
    (hneg : ¬ min (a - 1) ((backOffDelays.length : Int) - 1) < 0)
    (hbase : backOffDelays.get?
        (min (a - 1) ((backOffDelays.length : Int) - 1)).toNat = some base) :
    getBackOffDelay a r =
      some (base + ⌊r * ((base : ℚ) * (2 / 10)) * 2 - (base : ℚ) * (2 / 10)⌋) := by
  unfold getBackOffDelay
  simp only [if_neg hneg, hbase, Option.map_some']

/-- The retry delay `base + ⌊r * jitter * 2 - jitter⌋` stays within
`[0.8 * base, 1.2 * base]` when the jitter `base * 0.2` is a positive
integer `j` and `r ∈ [0, 1)`. -/
theorem delay_bounds_of_jitter_int (base j : Int) (r : ℚ) (hr0 : 0 ≤ r)
    (hr1 : r < 1) (hjpos : 0 < j) (hjeq : (base : ℚ) * (2 / 10) = (j : ℚ)) :
    (8 : ℚ) / 10 * base ≤
        ((base + ⌊r * ((base : ℚ) * (2 / 10)) * 2 - (base : ℚ) * (2 / 10)⌋
          : Int) : ℚ) ∧
      ((base + ⌊r * ((base : ℚ) * (2 / 10)) * 2 - (base : ℚ) * (2 / 10)⌋
          : Int) : ℚ) ≤ (12 : ℚ) / 10 * base := by
  have hb := jitterFloor_bounds j r hjpos hr0 hr1
  rw [hjeq]
  have h1 : ((-j : Int) : ℚ) ≤ ((⌊r * (j : ℚ) * 2 - (j : ℚ)⌋ : Int) : ℚ) := by
    exact_mod_cast hb.1
  have h2 : ((⌊r * (j : ℚ) * 2 - (j : ℚ)⌋ : Int) : ℚ) ≤ ((j - 1 : Int) : ℚ) := by
    exact_mod_cast hb.2
  have hbq : (base : ℚ) = 5 * (j : ℚ) := by linarith
  push_cast at h1 h2 ⊢
  constructor <;> nlinarith

/-- C3: for every attempt `a ≥ 1` and every value of the uniform random
source in `[0, 1)`, `getBackOffDelay(a)` is defined and lies within
`[0.8 * base, 1.2 * base]`, where `base = table[min(a-1, 2)]` for the table
`[10000, 60000, 300000]` ms; attempt 1 uses index 0 (base 10 s) and every
attempt `≥ 3` clamps to the last entry (base 300 s). -/
theorem getBackOffDelay_bounds (a : Int) (r : ℚ) (ha : 1 ≤ a)
    (hr0 : 0 ≤ r) (hr1 : r < 1) :
    ∃ base d : Int,
      backOffDelays.get?
          (min (a - 1) ((backOffDelays.length : Int) - 1)).toNat = some base ∧
      getBackOffDelay a r = some d ∧
      (8 : ℚ) / 10 * base ≤ (d : ℚ) ∧ (d : ℚ) ≤ (12 : ℚ) / 10 * base ∧
      (a = 1 → base = 10000) ∧ (3 ≤ a → base = 300000) := by
  have hlen : backOffDelays.length = 3 := rfl
  have hcase : a = 1 ∨ a = 2 ∨ 3 ≤ a := by omega
  rcases hcase with rfl | rfl | h3
  · have hbase : backOffDelays.get?
        (min ((1 : Int) - 1) ((backOffDelays.length : Int) - 1)).toNat =
          some 10000 := rfl
    have hb := delay_bounds_of_jitter_int 10000 2000 r hr0 hr1 (by norm_num)
      (by norm_num)
    exact ⟨10000, _, hbase,
      getBackOffDelay_eq 10000 1 r (by rw [hlen]; omega) hbase,
      hb.1, hb.2, fun _ => rfl, fun h => absurd h (by omega)⟩
  · have hbase : backOffDelays.get?
        (min ((2 : Int) - 1) ((backOffDelays.length : Int) - 1)).toNat =
          some 60000 := rfl
    have hb := delay_bounds_of_jitter_int 60000 12000 r hr0 hr1 (by norm_num)
      (by norm_num)
    exact ⟨60000, _, hbase,
      getBackOffDelay_eq 60000 2 r (by rw [hlen]; omega) hbase,
      hb.1, hb.2, fun h => absurd h (by omega), fun h => absurd h (by omega)⟩
  · have hmin : min (a - 1) ((backOffDelays.length : Int) - 1) = 2 := by
      rw [hlen]
      omega
    have hbase : backOffDelays.get?
        (min (a - 1) ((backOffDelays.length : Int) - 1)).toNat =
          some 300000 := by
      rw [hmin]
      rfl
    have hb := delay_bounds_of_jitter_int 300000 60000 r hr0 hr1 (by norm_num)
      (by norm_num)
    exact ⟨300000, _, hbase,
      getBackOffDelay_eq 300000 a r (by rw [hlen]; omega) hbase,
      hb.1, hb.2, fun h => absurd h (by omega), fun _ => rfl⟩

/-- C3 witness: attempt 1 with `Math.random() = 0`. -/
theorem getBackOffDelay_bounds_witness :
    ((1 : Int) ≤ 1 ∧ (0 : ℚ) ≤ 0 ∧ (0 : ℚ) < 1) ∧
      ∃ base d : Int,
        backOffDelays.get?
            (min ((1 : Int) - 1) ((backOffDelays.length : Int) - 1)).toNat =
          some base ∧
        getBackOffDelay 1 0 = some d ∧
        (8 : ℚ) / 10 * base ≤ (d : ℚ) ∧ (d : ℚ) ≤ (12 : ℚ) / 10 * base ∧
        ((1 : Int) = 1 → base = 10000) ∧ ((3 : Int) ≤ 1 → base = 300000) :=
  ⟨⟨le_refl 1, le_refl 0, by norm_num⟩,
    getBackOffDelay_bounds 1 0 (le_refl 1) (le_refl 0) (by norm_num)⟩

/-- A removal budget of 0 removes nothing. -/
theorem lremHead_zero (l : List Job) (v : Job) : lremHead l 0 v = l := by
  cases l <;> simp [lremHead]

/-- When `find? p` locates `j`, the list splits as `l₁ ++ j :: l₂` with `p`
false on all of `l₁`, and `LREM _ 1 j` removes exactly that first
occurrence. -/
theorem find_split_lrem (l : List Job) (p : Job → Bool) (j : Job)
    (h : l.find? p = some j) :
    ∃ l₁ l₂, l = l₁ ++ j :: l₂ ∧ (∀ x ∈ l₁, p x = false) ∧
      lrem l 1 j = l₁ ++ l₂ := by
  induction l with
  | nil => simp at h
  | cons x xs ih =>
    by_cases hx : p x
    · rw [List.find?_cons_of_pos _ hx] at h
      obtain rfl : x = j := by injection h
      refine ⟨[], xs, rfl, by simp, ?_⟩
      simp [lrem, lremHead, lremHead_zero]
    · rw [List.find?_cons_of_neg _ hx] at h
      obtain ⟨l₁, l₂, rfl, hl₁, hrem⟩ := ih h
      have hxj : x ≠ j := by
        intro he
        exact hx (he ▸ List.find?_some h)
      refine ⟨x :: l₁, l₂, rfl, ?_, ?_⟩
      · intro y hy
        rcases List.mem_cons.mp hy with rfl | hy
        · exact eq_false_of_ne_true hx
        · exact hl₁ y hy
      · have h1 : lrem (x :: (l₁ ++ j :: l₂)) 1 j =
            x :: lremHead (l₁ ++ j :: l₂) 1 j := by
          simp [lrem, lremHead, hxj]
        have h2 : lremHead (l₁ ++ j :: l₂) 1 j = l₁ ++ l₂ := by
          have : lrem (l₁ ++ j :: l₂) 1 j = lremHead (l₁ ++ j :: l₂) 1 j := by
            simp [lrem]
          rw [← this, hrem]
        rw [h1, h2]
        rfl

/-- C4: when the dead-letter list has an entry with the requested id (ids
being unique in the store), `retryFromDLQ` removes exactly one matching
entry — the first one — re-enqueues onto the main queue that job with
`attempt = 0` and `lastError` / `failedAt` cleared, and returns `true`;
afterwards no job with that id appears in the dead-letter listing. -/
theorem retryFromDLQ_found (st : QState) (jobId : String)
    (hmem : ∃ x ∈ st.dlq, x.id = jobId)
    (huniq : (st.dlq.map Job.id).Nodup) :
    ∃ j l₁ l₂,
      st.dlq = l₁ ++ j :: l₂ ∧ j.id = jobId ∧
      retryFromDLQ jobId st =
        (true,
          { st with
              dlq := l₁ ++ l₂,
              queue := { j with attempt := 0, lastError := none, failedAt := none } :: st.queue }) ∧
      (l₁ ++ l₂).length + 1 = st.dlq.length ∧
      ∀ x ∈ l₁ ++ l₂, x.id ≠ jobId := by
  obtain ⟨w, hw, hwid⟩ := hmem
  have hsome : (st.dlq.find? (fun x => x.id == jobId)).isSome := by
    rw [List.find?_isSome]
    exact ⟨w, hw, by simpa using hwid⟩
  obtain ⟨j, hfind⟩ := Option.isSome_iff_exists.mp hsome
  have hjid : j.id = jobId := by
    have := List.find?_some hfind
    simpa using this
  obtain ⟨l₁, l₂, hsplit, hl₁, hrem⟩ :=
    find_split_lrem st.dlq (fun x => x.id == jobId) j hfind
  refine ⟨j, l₁, l₂, hsplit, hjid, ?_, ?_, ?_⟩
  · simp only [retryFromDLQ, getDLQ, hfind, hrem, enqueue]
  · rw [hsplit]
    simp only [List.length_append, List.length_cons]
    omega
  · intro x hx
    rcases List.mem_append.mp hx with hx1 | hx2
    · have := hl₁ x hx1
      simpa using this
    · have hnodup := huniq
      rw [hsplit] at hnodup
      simp only [List.map_append, List.map_cons] at hnodup
      have hr : (j.id :: l₂.map Job.id).Nodup :=
        (List.nodup_append.mp hnodup).2.1
      have hnotmem : j.id ∉ l₂.map Job.id := (List.nodup_cons.mp hr).1
      intro hxid
      have : j.id ∈ l₂.map Job.id := by
        rw [hjid, ← hxid]
        exact List.mem_map_of_mem Job.id hx2
      exact hnotmem this

/-- C4 witness: resurrect `"j1"` from a one-entry dead-letter store. -/
theorem retryFromDLQ_found_witness :
    ((∃ x ∈ (QState.dlq { dlq := [deadJ1] }), x.id = "j1") ∧
      ((QState.dlq { dlq := [deadJ1] }).map Job.id).Nodup) ∧
      ∃ j l₁ l₂,
        (QState.dlq { dlq := [deadJ1] }) = l₁ ++ j :: l₂ ∧ j.id = "j1" ∧
        retryFromDLQ "j1" { dlq := [deadJ1] } =
          (true,
            { ({ dlq := [deadJ1] } : QState) with
                dlq := l₁ ++ l₂,
                queue := { j with attempt := 0, lastError := none, failedAt := none } :: (QState.queue { dlq := [deadJ1] }) }) ∧
        (l₁ ++ l₂).length + 1 = (QState.dlq { dlq := [deadJ1] }).length ∧
        ∀ x ∈ l₁ ++ l₂, x.id ≠ "j1" :=
  ⟨⟨by decide, by decide⟩,
    retryFromDLQ_found { dlq := [deadJ1] } "j1" (by decide) (by decide)⟩

/-- C2 counterexample: running Scenario A as written — `maxAttempts = 3`
and exactly 3 consecutive handler failures `"e1", "e2", "e3"` — leaves the
dead-letter store empty: the job is *not* dead-lettered but sits in a
pending retry timer with `attempt = 3`, `lastError = "e3"` and `failedAt`
unset, because `requestForRetry` dead-letters only when
`attempt > maxAttempts`, i.e. on the 4th failure. -/
theorem scenarioA_three_failures_not_dead_lettered :
    (scenarioA ["e1", "e2", "e3"]).2.dlq = [] ∧
    (scenarioA ["e1", "e2", "e3"]).2.queue = [] ∧
    (scenarioA ["e1", "e2", "e3"]).2.pending.map
        (fun p => (p.2.id, p.2.attempt, p.2.lastError, p.2.failedAt)) =
      [("j1", 3, some "e3", none)] := by
  decide

/-- C2 (amended): starting from a job enqueued with `maxAttempts = 3` and
`attempt = 0`, after exactly **4** consecutive handler failures
`"e1", "e2", "e3", "e4"` the job is absent from the main queue (and from
the pending retry timers) and present in the dead-letter store with
`attempt = 4`, `lastError = "e4"` and `failedAt` set. -/
theorem scenarioA_four_failures_dead_lettered :
    (scenarioA ["e1", "e2", "e3", "e4"]).2.queue = [] ∧
    (scenarioA ["e1", "e2", "e3", "e4"]).2.pending = [] ∧
    (scenarioA ["e1", "e2", "e3", "e4"]).2.dlq = [deadJ1] := by
  decide

/-- C6: `retryAllDLQ` does *not* resurrect the dead-letter jobs — the
source passes `this.queueName` (the string `"notifications"`) as `LREM`'s
integer `count` argument, Redis rejects it
(`redisParseInt "notifications" = none`), and the rejected promise aborts
the loop on the very first job: with one dead-lettered job the call errors
out instead of returning the count of jobs processed. -/
theorem retryAllDLQ_count_arg_error :
    retryAllDLQ { dlq := [deadJ1] } =
      .error "ERR value is not an integer or out of range" ∧
    redisParseInt "notifications" = none :=
  ⟨rfl, rfl⟩

/-- C9: the JSON serialize/deserialize round-trip across the queue is the
identity on the job wire format: parsing the serialization of any job `j`
returns `j` itself (hence `id`, `type`, `channel`, `userId`, `payload`,
`createdAt`, `attempt` and `maxAttempts` are all preserved), and dequeuing
the entry just enqueued yields exactly `j`. -/
theorem serialize_parse_roundtrip (j : Job) (st : QState) :
    parseJob (serializeJob j) = some j ∧
    (dequeue (enqueue j { st with queue := [] })).1 = some j := by
  constructor
  · obtain ⟨id, type, channel, userId, payload, createdAt, attempt,
      maxAttempts, le, fa⟩ := j
    cases le <;> cases fa <;> rfl
  · simp [enqueue, dequeue]

end NotifQueue
